import Mathlib

/-!
Shallow embedding of the pentagon key-value access layer
(`src/pentagon.ts`, `src/crud.ts`) and verification of its
specification.

The impl functions (`createImpl`, `createManyImpl`, `deleteImpl`,
`deleteManyImpl`, `updateImpl`, `updateManyImpl`, `findManyImpl`,
`findFirstImpl`) are embedded directly from `src/pentagon.ts`.
The helpers they import — `create`, `update`, `remove`, `findMany`
from `crud.ts` (whose bodies are commented out in the source) and
`schemaToKeys`, `keysToIndexes`, `whereToKeys` from `keys.ts` (not
part of the provided sources) — are modelled from the spec, as noted
in their doc comments.

The mutable `Deno.Kv` store is modelled as explicit state: every
operation takes a `Kv` and returns a `(result, new store)` pair, so a
thrown exception (an `Except.error` result) still threads the store
mutations performed before the throw, exactly as a thrown JS exception
leaves earlier awaited commits in place.
-/

namespace Pentagon

/-- Physical key: an ordered tuple of strings, e.g. `["users", "1"]`
for the primary namespace or `["users_by_email", "a@x.com"]` for an
index namespace. -/
abbrev KvKey := List String

/-- Entity: a mapping from field name to (string) value, modelled as
an association list in declaration order, matching a JS object's own
enumerable properties. -/
abbrev Entity := List (String × String)

/-- Version tokens are opaque strings issued by the store
(Deno KV versionstamps are strings). -/
abbrev Stamp := String

/-- Property lookup on an entity: the value of the first binding of
field `f`, as JS property access on an object literal. -/
def getField : Entity → String → Option String
  | [], _ => none
  | (g, v) :: rest, f => if g = f then some v else getField rest f

/-- JS object spread `\x7b...a, ...b\x7d`: fields of `b` override fields of
`a`; fields of `a` not named in `b` are kept. -/
def spread : Entity → Entity → Entity
  | [], b => b
  | p :: rest, b => if (getField b p.1).isSome then spread rest b else p :: spread rest b

/-- Stored item: a physical key, the entity value stored under it, and
the version token of its last write. -/
structure KvItem where
  key : KvKey
  value : Entity
  versionstamp : Stamp
  deriving DecidableEq, Repr

/-- The store: an ordered list of entries (the store's natural key
ordering is its insertion order here) together with a counter from
which fresh version tokens are generated. -/
structure Kv where
  entries : List KvItem
  nextStamp : Nat
  deriving DecidableEq, Repr

/-- Fresh version token for the next atomic commit. -/
def Kv.freshStamp (kv : Kv) : Stamp := toString kv.nextStamp

/-- First entry stored under key `k`, if any. -/
def findEntry : List KvItem → KvKey → Option KvItem
  | [], _ => none
  | it :: rest, k => if it.key = k then some it else findEntry rest k

/-- Point read `kv.get(k)`. -/
def Kv.get (kv : Kv) (k : KvKey) : Option KvItem :=
  findEntry kv.entries k

/-- Set key `k` to value `v` with version token `s`, replacing any
existing entry for `k`. -/
def setEntry : List KvItem → KvKey → Entity → Stamp → List KvItem
  | [], k, v, s => [⟨k, v, s⟩]
  | it :: rest, k, v, s =>
    if it.key = k then setEntry rest k v s else it :: setEntry rest k v s

/-- Delete every entry stored under key `k`. -/
def delEntry : List KvItem → KvKey → List KvItem
  | [], _ => []
  | it :: rest, k => if it.key = k then delEntry rest k else it :: delEntry rest k

/-- Ordered scan of the namespace `ns` (the `list(keyPrefix)` store
primitive restricted to a table's primary namespace). -/
def Kv.listNs (kv : Kv) (ns : String) : List KvItem :=
  kv.entries.filter fun it => it.key.head? = some ns

/-- Error taxonomy. `DuplicateKeyError` is the spec's name for the
create-collision error raised by `crud.ts`'s `create`;
`PentagonUpdateError` is thrown by name in `src/pentagon.ts` (line
139, message `Updating zero elements.`); `NoMatchError` appears only
in the spec's taxonomy (§7) for a singular mutation with an empty
resolved set — no source code path constructs it. -/
inductive Err where
  | DuplicateKeyError
  | PentagonUpdateError
  | NoMatchError
  deriving DecidableEq, Repr

/-- Response of a successful create or update of one item: the entity
plus the version token of the commit, as `\x7b...item, versionstamp\x7d`. -/
structure CreateResp where
  value : Entity
  versionstamp : Stamp
  deriving DecidableEq, Repr

/-- Table definition: the primary-key field and the declared
secondary-index fields (spec §3: exactly one primary key, zero or
more unique secondary indexes). -/
structure TableDef where
  primaryKey : String
  indexFields : List String
  deriving DecidableEq, Repr

/-- Access key: a key field constrained to a value, marked primary or
secondary (spec §3 AccessKey). -/
structure AccessKey where
  field : String
  value : String
  isPrimary : Bool
  deriving DecidableEq, Repr

/-- Modelled from the spec: `schemaToKeys` of `keys.ts` is not among
the provided sources. Per §4.1 (Key Encoder) it maps a table
definition and a (possibly partial) entity to the access keys the
entity's present fields occupy: the primary key when the primary-key
field is present, and one secondary key per present indexed field. -/
def schemaToKeys (td : TableDef) (e : Entity) : List AccessKey :=
  (match getField e td.primaryKey with
    | some v => [⟨td.primaryKey, v, true⟩]
    | none => []) ++
  td.indexFields.filterMap fun f => (getField e f).map fun v => ⟨f, v, false⟩

/-- Modelled from the spec: `keysToIndexes` of `keys.ts` is not among
the provided sources. Per §3 (Physical key) it renders an access key
as `[table, value]` for the primary key and
`[table_by_field, value]` for a secondary index. -/
def keysToIndexes (tableName : String) (keys : List AccessKey) : List KvKey :=
  keys.map fun k =>
    if k.isPrimary then [tableName, k.value]
    else [tableName ++ "_by_" ++ k.field, k.value]

/-- Does a stored entity satisfy every equality constraint of a
`where` object? -/
def matchesWhere (e : Entity) (w : Entity) : Bool :=
  w.all fun p => getField e p.1 = some p.2

/-- Modelled from the spec: `whereToKeys` of `keys.ts` is not among
the provided sources. Per §4.2 (Index Planner): when the `where`
constraints resolved to index keys, perform direct point lookups on
those keys; otherwise fall back to a prefix scan of the table's
primary namespace filtered in memory by the `where` predicate. -/
def whereToKeys (kv : Kv) (tableName : String) (indexKeys : List KvKey) (w : Entity) : List KvItem :=
  if indexKeys.isEmpty then
    (kv.listNs tableName).filter fun it => matchesWhere it.value w
  else
    indexKeys.filterMap fun k => kv.get k

/-- Modelled from the spec: `create` of `crud.ts` is commented out in
the source. Per §4.3 (`writeCreate`): one atomic batch checking that
the primary key and every index key are absent and setting them all
to the entity; on any conflicting key it fails with
`DuplicateKeyError`, otherwise it returns the entity with the new
version token. -/
def create (data : Entity) (indexKeys : List KvKey) (kv : Kv) :
    Except Err CreateResp × Kv :=
  if indexKeys.any fun k => (kv.get k).isSome then
    (.error .DuplicateKeyError, kv)
  else
    (.ok ⟨data, kv.freshStamp⟩,
     ⟨indexKeys.foldl (fun es k => setEntry es k data kv.freshStamp) kv.entries,
      kv.nextStamp + 1⟩)

/-- Modelled from the spec: `update` of `crud.ts` is commented out in
the source. Per §4.3 (`writeUpdate`) an update is one atomic batch
setting every key to its new value and returning each updated record
with the new version token. The call site in `updateManyImpl` passes
only the new values and the keys — no version tokens — so no
compare-and-set check is representable at this signature; the write
is modelled as an unconditional batch set. -/
def update (values : List Entity) (keys : List KvKey) (kv : Kv) :
    Except Err (List CreateResp) × Kv :=
  (.ok (values.map fun v => ⟨v, kv.freshStamp⟩),
   ⟨(keys.zip values).foldl (fun es p => setEntry es p.1 p.2 kv.freshStamp) kv.entries,
    kv.nextStamp + 1⟩)

/-- Modelled from the spec: `remove` of `crud.ts` is commented out in
the source. Per §4.3 (`writeDelete`) it deletes every given key in
one atomic batch; it raises no error of its own. -/
def remove (keys : List KvKey) (kv : Kv) : Except Err Unit × Kv :=
  (.ok (), ⟨keys.foldl (fun es k => delEntry es k) kv.entries, kv.nextStamp⟩)

/-- Modelled from the spec: `findMany` of `crud.ts` is commented out
in the source. Per §4.4 it is Planner resolution only, no writes:
encode the `where` constraints to index keys and resolve them via the
planner (`whereToKeys`), returning the ordered matching records. -/
def findMany (kv : Kv) (tableName : String) (td : TableDef) (w : Option Entity) : List KvItem :=
  whereToKeys kv tableName (keysToIndexes tableName (schemaToKeys td (w.getD []))) (w.getD [])

/-- Embedded from `src/pentagon.ts` lines 53–63 (`createImpl`):
derive the entity's keys, render them physical, and call `create`. -/
def createImpl (tableName : String) (td : TableDef) (data : Entity) (kv : Kv) :
    Except Err CreateResp × Kv :=
  create data (keysToIndexes tableName (schemaToKeys td data)) kv

/-- Embedded from `src/pentagon.ts` lines 65–84 (`createManyImpl`):
apply `createImpl` to each item in order, pushing each result; a
failure propagates as the thrown error, discarding the accumulated
list (but not the store mutations already committed). -/
def createManyImpl (tableName : String) (td : TableDef) :
    List Entity → Kv → Except Err (List CreateResp) × Kv
  | [], kv => (.ok [], kv)
  | d :: rest, kv =>
    match createImpl tableName td d kv with
    | (.ok r, kv₁) =>
      match createManyImpl tableName td rest kv₁ with
      | (.ok rs, kv₂) => (.ok (r :: rs), kv₂)
      | (.error e, kv₂) => (.error e, kv₂)
    | (.error e, kv₁) => (.error e, kv₁)

/-- Embedded from `src/pentagon.ts` lines 86–102 (`deleteImpl`):
resolve the `where` argument to found items and remove their keys. -/
def deleteImpl (tableName : String) (td : TableDef) (w : Option Entity) (kv : Kv) :
    Except Err Unit × Kv :=
  remove ((whereToKeys kv tableName
    (keysToIndexes tableName (schemaToKeys td (w.getD []))) (w.getD [])).map KvItem.key) kv

/-- Embedded from `src/pentagon.ts` lines 104–120 (`deleteManyImpl`):
the body is identical to `deleteImpl`'s, line for line. -/
def deleteManyImpl (tableName : String) (td : TableDef) (w : Option Entity) (kv : Kv) :
    Except Err Unit × Kv :=
  remove ((whereToKeys kv tableName
    (keysToIndexes tableName (schemaToKeys td (w.getD []))) (w.getD [])).map KvItem.key) kv

/-- Embedded from `src/pentagon.ts` lines 142–150, the `// Merge` map
of `updateManyImpl`: each found item keeps its key, its value becomes
the spread `\x7b...existing.value, ...data\x7d`, and its versionstamp
becomes `data.versionstamp ?? existing.versionstamp`. -/
def mergeUpdate (foundItems : List KvItem) (data : Entity) : List KvItem :=
  foundItems.map fun x =>
    ⟨x.key, spread x.value data, (getField data "versionstamp").getD x.versionstamp⟩

/-- Embedded from `src/pentagon.ts` lines 122–157 (`updateManyImpl`):
resolve the `where` argument; throw `PentagonUpdateError` on an empty
resolved set; otherwise merge `data` into each found item and call
`update` with the merged values and the found keys. -/
def updateManyImpl (tableName : String) (td : TableDef) (w : Option Entity) (data : Entity)
    (kv : Kv) : Except Err (List CreateResp) × Kv :=
  let foundItems := whereToKeys kv tableName
    (keysToIndexes tableName (schemaToKeys td (w.getD []))) (w.getD [])
  if foundItems.isEmpty then
    (.error .PentagonUpdateError, kv)
  else
    update ((mergeUpdate foundItems data).map KvItem.value) (foundItems.map KvItem.key) kv

/-- Embedded from `src/pentagon.ts` lines 159–167 (`updateImpl`):
`(await updateManyImpl(...))?.[0]` — the first element of
`updateManyImpl`'s result, propagating its error. -/
def updateImpl (tableName : String) (td : TableDef) (w : Option Entity) (data : Entity)
    (kv : Kv) : Except Err (Option CreateResp) × Kv :=
  match updateManyImpl tableName td w data kv with
  | (.ok rs, kv₁) => (.ok rs.head?, kv₁)
  | (.error e, kv₁) => (.error e, kv₁)

/-- Embedded from `src/pentagon.ts` lines 169–181 (`findManyImpl`):
a direct call of `findMany` on the same arguments. -/
def findManyImpl (kv : Kv) (tableName : String) (td : TableDef) (w : Option Entity) :
    List KvItem :=
  findMany kv tableName td w

/-- Embedded from `src/pentagon.ts` lines 183–191 (`findFirstImpl`):
`(await findMany(...))?.[0]` on the same arguments. -/
def findFirstImpl (kv : Kv) (tableName : String) (td : TableDef) (w : Option Entity) :
    Option KvItem :=
  (findMany kv tableName td w).head?



deriving instance DecidableEq for Except

/-! ### Store-level lemmas about `findEntry` and `setEntry` -/

lemma findEntry_setEntry_self (es : List KvItem) (k : KvKey) (v : Entity) (s : Stamp) :
    findEntry (setEntry es k v s) k = some ⟨k, v, s⟩ := by
  induction es with
  | nil => simp [setEntry, findEntry]
  | cons it rest ih =>
    by_cases h : it.key = k
    · simp only [setEntry, if_pos h]; exact ih
    · simp only [setEntry, if_neg h, findEntry, if_neg h]; exact ih

lemma findEntry_setEntry_ne (es : List KvItem) (k k' : KvKey) (v : Entity) (s : Stamp)
    (hne : k' ≠ k) :
    findEntry (setEntry es k v s) k' = findEntry es k' := by
  induction es with
  | nil =>
    simp only [setEntry, findEntry]
    rw [if_neg (fun hx : k = k' => hne hx.symm)]
  | cons it rest ih =>
    by_cases h : it.key = k
    · simp only [setEntry, if_pos h, ih, findEntry]
      rw [if_neg (fun hx : it.key = k' => hne ((h.symm.trans hx).symm))]
    · simp only [setEntry, if_neg h, findEntry]
      by_cases h3 : it.key = k'
      · rw [if_pos h3, if_pos h3]
      · rw [if_neg h3, if_neg h3]; exact ih

lemma findEntry_setEntry_isSome (es : List KvItem) (k k' : KvKey) (v : Entity) (s : Stamp)
    (h : (findEntry es k').isSome) :
    (findEntry (setEntry es k v s) k').isSome := by
  by_cases he : k' = k
  · subst he; rw [findEntry_setEntry_self]; rfl
  · rwa [findEntry_setEntry_ne es k k' v s he]

lemma foldl_setEntry_isSome (ks : List KvKey) (v : Entity) (s : Stamp) :
    ∀ (es : List KvItem) (k : KvKey), (findEntry es k).isSome →
      (findEntry (ks.foldl (fun es k => setEntry es k v s) es) k).isSome := by
  induction ks with
  | nil => intro es k h; simpa using h
  | cons k0 rest ih =>
    intro es k h
    exact ih (setEntry es k0 v s) k (findEntry_setEntry_isSome es k0 k v s h)

lemma foldl_setEntry_mem_isSome (ks : List KvKey) (v : Entity) (s : Stamp) :
    ∀ (es : List KvItem) (k : KvKey), k ∈ ks →
      (findEntry (ks.foldl (fun es k => setEntry es k v s) es) k).isSome := by
  induction ks with
  | nil => intro es k h; cases h
  | cons k0 rest ih =>
    intro es k h
    rcases List.mem_cons.mp h with h | h
    · subst h
      exact foldl_setEntry_isSome rest v s _ k
        (by rw [findEntry_setEntry_self]; rfl)
    · exact ih (setEntry es k0 v s) k h




/-! ### Lemmas about `create` and `createImpl` -/

lemma create_error_of_occupied (d : Entity) (ks : List KvKey) (kv : Kv)
    (h : ∃ k ∈ ks, (kv.get k).isSome) :
    (create d ks kv).1 = .error .DuplicateKeyError := by
  rcases h with ⟨k, hk, hs⟩
  have hb : (ks.any fun k => (kv.get k).isSome) = true :=
    List.any_eq_true.mpr ⟨k, hk, hs⟩
  simp [create, hb]

lemma create_error_state (d : Entity) (ks : List KvKey) (kv : Kv) (e : Err)
    (h : (create d ks kv).1 = .error e) :
    (create d ks kv).2 = kv := by
  by_cases hb : (ks.any fun k => (kv.get k).isSome) = true
  · simp [create, hb]
  · simp [create, hb] at h

lemma create_ok_keys (d : Entity) (ks : List KvKey) (kv : Kv) (r : CreateResp) (kv₂ : Kv)
    (h : create d ks kv = (.ok r, kv₂)) :
    ∀ k ∈ ks, (kv₂.get k).isSome := by
  by_cases hb : (ks.any fun k => (kv.get k).isSome) = true
  · simp [create, hb] at h
  · simp only [create, hb, if_neg, Bool.not_eq_true] at h
    intro k hk
    have h2 : kv₂ = ⟨ks.foldl (fun es k => setEntry es k d kv.freshStamp) kv.entries,
        kv.nextStamp + 1⟩ := by
      simpa using congrArg Prod.snd h.symm
    rw [h2]
    exact foldl_setEntry_mem_isSome ks d kv.freshStamp kv.entries k hk

lemma create_mono (d : Entity) (ks : List KvKey) (kv : Kv) (r : CreateResp) (kv₂ : Kv)
    (k : KvKey) (h : create d ks kv = (.ok r, kv₂)) (hs : (kv.get k).isSome) :
    (kv₂.get k).isSome := by
  by_cases hb : (ks.any fun k => (kv.get k).isSome) = true
  · simp [create, hb] at h
  · simp only [create, hb, if_neg, Bool.not_eq_true] at h
    have h2 : kv₂ = ⟨ks.foldl (fun es k => setEntry es k d kv.freshStamp) kv.entries,
        kv.nextStamp + 1⟩ := by
      simpa using congrArg Prod.snd h.symm
    rw [h2]
    exact foldl_setEntry_isSome ks d kv.freshStamp kv.entries k hs

lemma createImpl_error_of_occupied (tn : String) (td : TableDef) (d : Entity) (kv : Kv)
    (h : ∃ k ∈ keysToIndexes tn (schemaToKeys td d), (kv.get k).isSome) :
    (createImpl tn td d kv).1 = .error .DuplicateKeyError :=
  create_error_of_occupied d _ kv h

lemma createImpl_error_state (tn : String) (td : TableDef) (d : Entity) (kv : Kv) (e : Err)
    (h : (createImpl tn td d kv).1 = .error e) :
    (createImpl tn td d kv).2 = kv :=
  create_error_state d _ kv e h

lemma createImpl_ok_keys (tn : String) (td : TableDef) (d : Entity) (kv : Kv)
    (r : CreateResp) (kv₂ : Kv) (h : createImpl tn td d kv = (.ok r, kv₂)) :
    ∀ k ∈ keysToIndexes tn (schemaToKeys td d), (kv₂.get k).isSome :=
  create_ok_keys d _ kv r kv₂ h

lemma createImpl_mono (tn : String) (td : TableDef) (d : Entity) (kv : Kv)
    (r : CreateResp) (kv₂ : Kv) (k : KvKey) (h : createImpl tn td d kv = (.ok r, kv₂))
    (hs : (kv.get k).isSome) : (kv₂.get k).isSome :=
  create_mono d _ kv r kv₂ k h hs

/-! ### Membership of derived physical keys -/

lemma primary_mem_keys (tn : String) (td : TableDef) (d : Entity) (v : String)
    (h : getField d td.primaryKey = some v) :
    [tn, v] ∈ keysToIndexes tn (schemaToKeys td d) := by
  apply List.mem_map.mpr
  refine ⟨⟨td.primaryKey, v, true⟩, ?_, rfl⟩
  apply List.mem_append_left
  rw [h]
  simp

lemma index_mem_keys (tn : String) (td : TableDef) (d : Entity) (f : String) (v : String)
    (hf : f ∈ td.indexFields) (h : getField d f = some v) :
    [tn ++ "_by_" ++ f, v] ∈ keysToIndexes tn (schemaToKeys td d) := by
  apply List.mem_map.mpr
  refine ⟨⟨f, v, false⟩, ?_, rfl⟩
  apply List.mem_append_right
  exact List.mem_filterMap.mpr ⟨f, hf, by rw [h]; rfl⟩


/-! ### Lemmas about `createManyImpl` -/

lemma createMany_mono (tn : String) (td : TableDef) (items : List Entity) :
    ∀ (kv : Kv) (rs : List CreateResp) (kv₂ : Kv) (k : KvKey),
      createManyImpl tn td items kv = (.ok rs, kv₂) →
      (kv.get k).isSome → (kv₂.get k).isSome := by
  induction items with
  | nil =>
    intro kv rs kv₂ k h hs
    simp only [createManyImpl, Prod.mk.injEq] at h
    exact h.2 ▸ hs
  | cons d rest ih =>
    intro kv rs kv₂ k h hs
    simp only [createManyImpl] at h
    split at h
    next r kv₁ hp =>
      split at h
      next rs' kv₂' hq =>
        simp only [Prod.mk.injEq, Except.ok.injEq] at h
        have h1 : (kv₁.get k).isSome := createImpl_mono tn td d kv r kv₁ k hp hs
        exact h.2 ▸ ih kv₁ rs' kv₂' k hq h1
      next e kv₂' hq => simp at h
    next e kv₁ hp => simp at h

lemma createMany_ok_present (tn : String) (td : TableDef) (items : List Entity) :
    ∀ (kv : Kv) (rs : List CreateResp) (kv₂ : Kv),
      createManyImpl tn td items kv = (.ok rs, kv₂) →
      ∀ d' ∈ items, ∀ k ∈ keysToIndexes tn (schemaToKeys td d'), (kv₂.get k).isSome := by
  induction items with
  | nil => intro kv rs kv₂ _ d' hd'; cases hd'
  | cons d rest ih =>
    intro kv rs kv₂ h d' hd'
    simp only [createManyImpl] at h
    split at h
    next r kv₁ hp =>
      split at h
      next rs' kv₂' hq =>
        simp only [Prod.mk.injEq, Except.ok.injEq] at h
        rcases List.mem_cons.mp hd' with hd | hd
        · subst hd
          intro k hk
          have h1 : (kv₁.get k).isSome := createImpl_ok_keys tn td d' kv r kv₁ hp k hk
          exact h.2 ▸ createMany_mono tn td rest kv₁ rs' kv₂' k hq h1
        · exact h.2 ▸ ih kv₁ rs' kv₂' hq d' hd
      next e kv₂' hq => simp at h
    next e kv₁ hp => simp at h

lemma createManyImpl_cons_ok (tn : String) (td : TableDef) (d : Entity)
    (rest : List Entity) (kv kv₁ kv₂ : Kv) (r : CreateResp) (rs : List CreateResp)
    (hp : createImpl tn td d kv = (.ok r, kv₁))
    (hq : createManyImpl tn td rest kv₁ = (.ok rs, kv₂)) :
    createManyImpl tn td (d :: rest) kv = (.ok (r :: rs), kv₂) := by
  simp only [createManyImpl]
  rw [hp]
  dsimp only
  rw [hq]

lemma createMany_error_decomp (tn : String) (td : TableDef) (items : List Entity) :
    ∀ (kv : Kv) (e : Err) (kv₂ : Kv),
      createManyImpl tn td items kv = (.error e, kv₂) →
      ∃ pre d post rs, items = pre ++ d :: post ∧
        createManyImpl tn td pre kv = (.ok rs, kv₂) ∧
        (createImpl tn td d kv₂).1 = .error e := by
  induction items with
  | nil => intro kv e kv₂ h; simp only [createManyImpl] at h; simp at h
  | cons d rest ih =>
    intro kv e kv₂ h
    simp only [createManyImpl] at h
    split at h
    next r kv₁ hp =>
      split at h
      next rs' kv₂' hq => simp at h
      next e₂ kv₂' hq =>
        simp only [Prod.mk.injEq, Except.error.injEq] at h
        obtain ⟨pre', d', post', rs', hitems, hpre, hfail⟩ := ih kv₁ e₂ kv₂' hq
        refine ⟨d :: pre', d', post', r :: rs', by rw [hitems, List.cons_append], ?_, ?_⟩
        · rw [← h.2]
          exact createManyImpl_cons_ok tn td d pre' kv kv₁ kv₂' r rs' hp hpre
        · rw [← h.1, ← h.2]
          exact hfail
    next e' kv₁ hp =>
      simp only [Prod.mk.injEq, Except.error.injEq] at h
      have hst : kv₁ = kv := by
        have h2 := createImpl_error_state tn td d kv e' (by rw [hp])
        rw [hp] at h2
        exact h2
      refine ⟨[], d, rest, [], rfl, ?_, ?_⟩
      · simp only [createManyImpl]
        rw [← h.2, hst]
      · rw [← h.2, hst, hp, h.1]


/-! ### Concrete fixtures for witnesses and counterexamples -/

/-- Scenario A table of the spec: primary key `id`, secondary index
`email`. -/
def tdUsers : TableDef := ⟨"id", ["email"]⟩

/-- A table with no secondary index. -/
def tdPosts : TableDef := ⟨"id", []⟩

/-- The empty store. -/
def kvEmpty : Kv := ⟨[], 0⟩

/-- Scenario A first entity. -/
def alice : Entity := [("id", "1"), ("email", "a@x.com")]

/-- Scenario A second entity: fresh primary key, duplicate `email`. -/
def bob : Entity := [("id", "2"), ("email", "a@x.com")]

/-- Store state after creating `alice` in `users`. -/
def kvAfterAlice : Kv := (createImpl "users" tdUsers alice kvEmpty).2

/-- A post entity. -/
def post7 : Entity := [("id", "7")]

/-- Store state after creating `post7` in `posts`. -/
def kvAfterPost7 : Kv := (createImpl "posts" tdPosts post7 kvEmpty).2

/-- A store holding one `users` record under its primary key. -/
def kvOneUser : Kv := ⟨[⟨["users", "1"], [("id", "1"), ("email", "a@x.com")], "s0"⟩], 5⟩

/-! ### Claim theorems -/

/-- C1: for every table definition and every entity, `create` fails
with `DuplicateKeyError` when the entity's primary key already exists
or when any secondary-index key it would occupy already exists;
creating two entities with the same primary-key value or the same
value for an indexed field succeeds exactly once (the second create
fails). -/
theorem createImpl_uniqueness (tn : String) (td : TableDef) (d : Entity) (kv : Kv) :
    ((∃ k ∈ keysToIndexes tn (schemaToKeys td d), (kv.get k).isSome) →
      (createImpl tn td d kv).1 = .error .DuplicateKeyError) ∧
    (∀ (d₂ : Entity) (r : CreateResp) (kv₁ : Kv) (v : String),
      createImpl tn td d kv = (.ok r, kv₁) →
      ((getField d td.primaryKey = some v ∧ getField d₂ td.primaryKey = some v) ∨
        (∃ f, f ∈ td.indexFields ∧ getField d f = some v ∧ getField d₂ f = some v)) →
      (createImpl tn td d₂ kv₁).1 = .error .DuplicateKeyError) := by
  constructor
  · exact createImpl_error_of_occupied tn td d kv
  · intro d₂ r kv₁ v hok hshare
    apply createImpl_error_of_occupied
    rcases hshare with ⟨h1, h2⟩ | ⟨f, hf, h1, h2⟩
    · exact ⟨[tn, v], primary_mem_keys tn td d₂ v h2,
        createImpl_ok_keys tn td d kv r kv₁ hok _ (primary_mem_keys tn td d v h1)⟩
    · exact ⟨[tn ++ "_by_" ++ f, v], index_mem_keys tn td d₂ f v hf h2,
        createImpl_ok_keys tn td d kv r kv₁ hok _ (index_mem_keys tn td d f v hf h1)⟩

/-- Witness for C1: on the spec's Scenario A data, a create whose
index key is already occupied fails (first conjunct), and after
`alice` is created, creating `bob` with the same `email` value fails
(second conjunct). -/
theorem createImpl_uniqueness_witness :
    (createImpl "users" tdUsers bob kvAfterAlice).1 = .error .DuplicateKeyError ∧
    (createImpl "users" tdUsers bob (createImpl "users" tdUsers alice kvEmpty).2).1 =
      .error .DuplicateKeyError :=
  ⟨(createImpl_uniqueness "users" tdUsers bob kvAfterAlice).1
      ⟨["users_by_email", "a@x.com"], by decide⟩,
    (createImpl_uniqueness "users" tdUsers alice kvEmpty).2 bob ⟨alice, "0"⟩ kvAfterAlice
      "a@x.com" (by decide) (Or.inr ⟨"email", by decide⟩)⟩

/-- C2: `createMany` applies `create` to each item sequentially and
independently: whenever it fails, the input splits as
`pre ++ d :: post` where every item of `pre` was created (the final
store is exactly the store after creating `pre`, and each of `pre`'s
derived keys is present in it) and `d` is the item whose create
failed on that store. -/
theorem createManyImpl_sequential (tn : String) (td : TableDef) (items : List Entity)
    (kv : Kv) (e : Err) (kv₂ : Kv)
    (h : createManyImpl tn td items kv = (.error e, kv₂)) :
    ∃ pre d post rs, items = pre ++ d :: post ∧
      createManyImpl tn td pre kv = (.ok rs, kv₂) ∧
      (createImpl tn td d kv₂).1 = .error e ∧
      ∀ d' ∈ pre, ∀ k ∈ keysToIndexes tn (schemaToKeys td d'), (kv₂.get k).isSome := by
  obtain ⟨pre, d, post, rs, hitems, hpre, hfail⟩ :=
    createMany_error_decomp tn td items kv e kv₂ h
  exact ⟨pre, d, post, rs, hitems, hpre, hfail,
    createMany_ok_present tn td pre kv rs kv₂ hpre⟩

/-- Witness for C2: `createMany` of `[alice, bob]` on the empty store
fails on `bob` (duplicate `email` index key), and the decomposition
exhibits `alice` as the committed prefix. -/
theorem createManyImpl_sequential_witness :
    ∃ pre d post rs, [alice, bob] = pre ++ d :: post ∧
      createManyImpl "users" tdUsers pre kvEmpty = (.ok rs, kvAfterAlice) ∧
      (createImpl "users" tdUsers d kvAfterAlice).1 = .error .DuplicateKeyError ∧
      ∀ d' ∈ pre, ∀ k ∈ keysToIndexes "users" (schemaToKeys tdUsers d'),
        (kvAfterAlice.get k).isSome :=
  createManyImpl_sequential "users" tdUsers [alice, bob] kvEmpty .DuplicateKeyError
    kvAfterAlice (by decide)

/-- Counterexample for C3: `createMany [alice, bob]` fails on `bob`
and its result is the bare `DuplicateKeyError` — a value carrying no
list of applied items — even though `alice`'s record is committed in
the store (its primary key is present). The first failure is
surfaced, but the list of already-applied items is discarded, not
returned. -/
theorem createManyImpl_discards_applied_cex :
    (createManyImpl "users" tdUsers [alice, bob] kvEmpty).1 = .error .DuplicateKeyError ∧
    ((createManyImpl "users" tdUsers [alice, bob] kvEmpty).2.get ["users", "1"]).isSome := by
  decide

/-- C3 (amended): on a failing batch, `createMany` surfaces only the
first failure to the caller; the items applied before the failure
remain committed in the store, but no list of them is part of the
returned value. -/
theorem createManyImpl_error_result (tn : String) (td : TableDef) (items : List Entity)
    (kv : Kv) (e : Err) (kv₂ : Kv)
    (h : createManyImpl tn td items kv = (.error e, kv₂)) :
    (createManyImpl tn td items kv).1 = .error e ∧
    ∃ pre d post, items = pre ++ d :: post ∧
      ∀ d' ∈ pre, ∀ k ∈ keysToIndexes tn (schemaToKeys td d'), (kv₂.get k).isSome := by
  obtain ⟨pre, d, post, rs, hitems, hpre, -⟩ :=
    createMany_error_decomp tn td items kv e kv₂ h
  exact ⟨by rw [h], pre, d, post, hitems,
    createMany_ok_present tn td pre kv rs kv₂ hpre⟩

/-- Witness for C3's amended theorem, on a distinct fixture: a batch
of two posts with the same primary key fails on the second, the error
alone is returned, and the first post's key is committed. -/
theorem createManyImpl_error_result_witness :
    (createManyImpl "posts" tdPosts [post7, post7] kvEmpty).1 = .error .DuplicateKeyError ∧
    ∃ pre d post, [post7, post7] = pre ++ d :: post ∧
      ∀ d' ∈ pre, ∀ k ∈ keysToIndexes "posts" (schemaToKeys tdPosts d'),
        (kvAfterPost7.get k).isSome :=
  createManyImpl_error_result "posts" tdPosts [post7, post7] kvEmpty .DuplicateKeyError
    kvAfterPost7 (by decide)


/-! ### Field-lookup behaviour of the JS spread -/

lemma getField_spread (a b : Entity) (f : String) :
    getField (spread a b) f =
      match getField b f with
      | some v => some v
      | none => getField a f := by
  induction a with
  | nil =>
    simp only [spread]
    cases getField b f <;> simp [getField]
  | cons p rest ih =>
    obtain ⟨g, v⟩ := p
    by_cases hb : (getField b g).isSome
    · simp only [spread, if_pos hb, ih]
      cases hgb : getField b f with
      | some v' => rfl
      | none =>
        have hne : g ≠ f := by
          intro hx
          rw [hx, hgb] at hb
          simp at hb
        simp [getField, hne]
    · simp only [spread, if_neg hb]
      by_cases hpf : g = f
      · have hnone : getField b f = none := by
          rw [← hpf]
          exact Option.not_isSome_iff_eq_none.mp hb
        simp [getField, hpf, hnone]
      · simp only [getField, if_neg hpf, ih]

/-- C4: `findFirst` returns exactly the first element of `findMany`'s
result on the same arguments, and is absent exactly when `findMany`'s
result is empty. -/
theorem findFirstImpl_head (kv : Kv) (tn : String) (td : TableDef) (w : Option Entity) :
    findFirstImpl kv tn td w = (findManyImpl kv tn td w).head? ∧
    (findFirstImpl kv tn td w).isNone = (findManyImpl kv tn td w).isEmpty := by
  refine ⟨rfl, ?_⟩
  simp only [findFirstImpl, findManyImpl]
  cases findMany kv tn td w <;> rfl

/-- C5: `updateMany` fails with the zero-rows update error
(`PentagonUpdateError`, the spec's `UpdateZeroRowsError`) when the
`where` predicate resolves to no records, leaving the store
untouched; otherwise it returns one updated record per resolved item
— never a silent no-op on an empty resolved set. -/
theorem updateManyImpl_zero_rows (tn : String) (td : TableDef) (w : Option Entity)
    (d : Entity) (kv : Kv) :
    (whereToKeys kv tn (keysToIndexes tn (schemaToKeys td (w.getD []))) (w.getD []) = [] →
      updateManyImpl tn td w d kv = (.error .PentagonUpdateError, kv)) ∧
    (whereToKeys kv tn (keysToIndexes tn (schemaToKeys td (w.getD []))) (w.getD []) ≠ [] →
      (updateManyImpl tn td w d kv).1 = .ok
        ((whereToKeys kv tn (keysToIndexes tn (schemaToKeys td (w.getD []))) (w.getD [])).map
          fun x => ⟨spread x.value d, kv.freshStamp⟩)) := by
  constructor
  · intro h
    simp [updateManyImpl, h]
  · intro h
    have hne : (whereToKeys kv tn (keysToIndexes tn (schemaToKeys td (w.getD [])))
        (w.getD [])).isEmpty = false := by
      rw [Bool.eq_false_iff]
      intro hx
      exact h (List.isEmpty_iff.mp hx)
    simp [updateManyImpl, hne, update, mergeUpdate, List.map_map, Function.comp]

/-- Witness for C5: with `where id = 9` on the empty store the
resolved set is empty and `updateMany` fails with
`PentagonUpdateError`; with `where id = 1` on a one-record store it
returns the single updated record. -/
theorem updateManyImpl_zero_rows_witness :
    updateManyImpl "users" tdUsers (some [("id", "9")]) [("name", "x")] kvEmpty =
      (.error .PentagonUpdateError, kvEmpty) ∧
    (updateManyImpl "users" tdUsers (some [("id", "1")]) [("name", "x")] kvOneUser).1 =
      .ok ((whereToKeys kvOneUser "users"
          (keysToIndexes "users" (schemaToKeys tdUsers [("id", "1")])) [("id", "1")]).map
        fun x => ⟨spread x.value [("name", "x")], kvOneUser.freshStamp⟩) :=
  ⟨(updateManyImpl_zero_rows "users" tdUsers (some [("id", "9")]) [("name", "x")] kvEmpty).1
      (by decide),
    (updateManyImpl_zero_rows "users" tdUsers (some [("id", "1")]) [("name", "x")] kvOneUser).2
      (by decide)⟩

/-- Counterexample for C6: on an empty resolved set, the singular
`update` fails with the very `PentagonUpdateError` that `updateMany`
throws (spec: `UpdateZeroRowsError`), which is distinct from the
`NoMatchError` the claim names. -/
theorem updateImpl_error_name_cex :
    (updateImpl "users" tdUsers (some [("id", "9")]) [("name", "x")] kvEmpty).1 =
      .error .PentagonUpdateError ∧
    Err.PentagonUpdateError ≠ Err.NoMatchError := by decide

/-- C6 (amended): `update` returns the first record of `updateMany`'s
result on the same arguments and propagates `updateMany`'s error
unchanged — in particular, when `updateMany` would update zero
records, `update` fails with the same `PentagonUpdateError`, not a
distinct `NoMatchError`. -/
theorem updateImpl_head_of_updateMany (tn : String) (td : TableDef) (w : Option Entity)
    (d : Entity) (kv : Kv) :
    updateImpl tn td w d kv =
      (Except.map List.head? (updateManyImpl tn td w d kv).1,
        (updateManyImpl tn td w d kv).2) := by
  simp only [updateImpl]
  rcases h : updateManyImpl tn td w d kv with ⟨res, kv₁⟩
  cases res <;> simp [Except.map]

/-- Counterexample for C7: `deleteMany` with an empty `where` on the
empty store resolves to an empty match set and succeeds silently —
the result is `ok`, not the explicit zero-rows error the claim
requires. -/
theorem deleteManyImpl_no_error_cex :
    deleteManyImpl "users" tdUsers (some []) kvEmpty = (.ok (), kvEmpty) ∧
    (Except.ok () : Except Err Unit) ≠ .error .PentagonUpdateError := by decide

/-- C7 (amended): `deleteMany` never raises an error; on an empty
resolved match set it silently deletes zero rows and returns the
store unchanged — the explicit-error contract of `updateMany` is not
mirrored for deletes. -/
theorem deleteManyImpl_silent_on_empty (tn : String) (td : TableDef) (w : Option Entity)
    (kv : Kv) :
    (deleteManyImpl tn td w kv).1 = .ok () ∧
    (whereToKeys kv tn (keysToIndexes tn (schemaToKeys td (w.getD []))) (w.getD []) = [] →
      deleteManyImpl tn td w kv = (.ok (), kv)) := by
  constructor
  · simp [deleteManyImpl, remove]
  · intro h
    simp [deleteManyImpl, h, remove]

/-- Witness for C7's amended theorem: deleting `id = 2` from a store
that only holds `id = 1` resolves to an empty set and returns `ok`
with the store unchanged. -/
theorem deleteManyImpl_silent_witness :
    deleteManyImpl "users" tdUsers (some [("id", "2")]) kvOneUser = (.ok (), kvOneUser) :=
  (deleteManyImpl_silent_on_empty "users" tdUsers (some [("id", "2")]) kvOneUser).2
    (by decide)

/-- C8: every record written by `updateMany` (and hence by `update`)
is obtained from the resolved existing record by shallow field
overwrite: each field present in `data` replaces the existing field,
and every field absent from `data` is kept unchanged. -/
theorem updateManyImpl_shallow_overwrite (tn : String) (td : TableDef) (w : Option Entity)
    (d : Entity) (kv : Kv) (rs : List CreateResp) (kv₂ : Kv)
    (h : updateManyImpl tn td w d kv = (.ok rs, kv₂)) :
    List.Forall₂ (fun (x : KvItem) (r : CreateResp) => ∀ f,
        getField r.value f =
          match getField d f with
          | some v => some v
          | none => getField x.value f)
      (whereToKeys kv tn (keysToIndexes tn (schemaToKeys td (w.getD []))) (w.getD [])) rs := by
  simp only [updateManyImpl] at h
  split at h
  · simp at h
  · simp only [update, mergeUpdate, List.map_map, Prod.mk.injEq, Except.ok.injEq] at h
    rw [← h.1]
    rw [List.forall₂_map_right_iff]
    apply List.forall₂_same.mpr
    intro x _ f
    exact getField_spread x.value d f

/-- Witness for C8: updating the one-record store's `email` field
yields a record whose `email` is the new value and whose `id` is
kept. -/
theorem updateManyImpl_shallow_overwrite_witness :
    List.Forall₂ (fun (x : KvItem) (r : CreateResp) => ∀ f,
        getField r.value f =
          match getField [("email", "b@x.com")] f with
          | some v => some v
          | none => getField x.value f)
      (whereToKeys kvOneUser "users"
        (keysToIndexes "users" (schemaToKeys tdUsers [("id", "1")])) [("id", "1")])
      [⟨[("id", "1"), ("email", "b@x.com")], "5"⟩] :=
  updateManyImpl_shallow_overwrite "users" tdUsers (some [("id", "1")])
    [("email", "b@x.com")] kvOneUser [⟨[("id", "1"), ("email", "b@x.com")], "5"⟩]
    ⟨[⟨["users", "1"], [("id", "1"), ("email", "b@x.com")], "5"⟩], 6⟩ (by decide)

/-- Counterexample for C9: the write-back items computed by
`updateMany`'s merge step carry `data.versionstamp` when the caller's
`data` contains one — here the caller-supplied token `999` replaces
the token `s0` that was read when the record was resolved, so a code
path substitutes a token other than the last-observed one. -/
theorem mergeUpdate_token_cex :
    mergeUpdate [⟨["users", "1"], [("id", "1")], "s0"⟩] [("versionstamp", "999")] =
      [⟨["users", "1"], [("id", "1"), ("versionstamp", "999")], "999"⟩] ∧
    ("999" : Stamp) ≠ "s0" := by decide

/-- C9 (amended): the version token `updateMany` attaches to each
write-back item is the caller-supplied `data.versionstamp` when
present, and only otherwise the token observed when the record was
resolved; moreover the call into the store-level `update` passes only
values and keys, so the computed token is not presented as a
compare-and-set check at all. -/
theorem mergeUpdate_token (found : List KvItem) (d : Entity) :
    (mergeUpdate found d).map KvItem.versionstamp =
      found.map fun x => (getField d "versionstamp").getD x.versionstamp := by
  simp [mergeUpdate, List.map_map, Function.comp]

/-- C10: `delete` and `deleteMany` are extensionally equal — their
bodies resolve the same keys the same way and remove the same
records, returning the same result on every input. -/
theorem deleteImpl_eq_deleteManyImpl (tn : String) (td : TableDef) (w : Option Entity)
    (kv : Kv) : deleteImpl tn td w kv = deleteManyImpl tn td w kv := rfl

end Pentagon
